import Mathlib

/-!
Verification of `src/scripts/download_usc_zip.py`, a one-shot utility that
resolves a download link on an HTML page, streams a ZIP archive to disk and
extracts it.  The script is embedded shallowly: HTTP responses, the parsed
anchor elements, the chunked response body, the progress bar and the
filesystem are explicit values, and each Python function becomes a pure
Lean function over them.  Exceptions become an explicit error type carried
in `Except`.
-/

namespace UscZip

/-- Bytes of a stream or file, one natural number per octet. -/
abbrev Bytes := List Nat

/-- An HTML anchor element as BeautifulSoup delivers it: its `title` and
`href` attributes, `none` when the attribute is missing from the tag. -/
structure Anchor where
  title : Option String
  href : Option String
deriving Repr, DecidableEq

/-- The response to the page fetch `requests.get(DOWNLOAD_PAGE_URL)`:
final status code, the body `resp.text` as a character sequence, and the
anchor elements found by the BeautifulSoup parse of that body, in document
order. -/
structure PageResponse where
  statusCode : Nat
  text : List Char
  anchors : List Anchor
deriving Repr, DecidableEq

/-- The response to the streaming archive request
`requests.get(url, stream=True)`: status code, the numeric value of the
content-length header when the header is present, and the body as the
chunk sequence yielded by `iter_content(chunk_size=8192)`. -/
structure DownloadResponse where
  statusCode : Nat
  contentLength : Option Nat
  chunks : List Bytes
deriving Repr, DecidableEq

/-- The exceptions the script can raise, by failure mode:
`httpError` is `requests.exceptions.HTTPError` from `raise_for_status`
(the spec's NetworkError); `linkNotFound` is the
`RuntimeError` raised when the anchor or its href is missing (the spec's
LinkNotFoundError), carrying the diagnostic snippet `resp.text[:2000]`
that the script emits with it; `badZipFile` is `zipfile.BadZipFile`
(the spec's ArchiveError); `osError` stands for a filesystem error
propagating out of `os.makedirs`, which the script never handles. -/
inductive Err where
  | httpError (status : Nat)
  | linkNotFound (snippet : List Char)
  | badZipFile
  | osError
deriving Repr, DecidableEq

deriving instance DecidableEq for Except

/-- Path constant: the fixed download page URL (line 10 of the script). -/
def DOWNLOAD_PAGE_URL : String := "https://uscode.house.gov/download/download.shtml"

/-- The fixed origin prefixed to relative hrefs (line 28 of the script). -/
def ORIGIN : String := "https://uscode.house.gov"

/-- The anchor title the resolver searches for (line 22 of the script). -/
def EXPECTED_TITLE : String := "All USC Titles in XML"

/-- `Response.raise_for_status` from requests: raises `HTTPError` exactly
when the status code lies in the client-error or server-error range
400..599, and returns normally otherwise. -/
def raise_for_status (status : Nat) : Except Err Unit :=
  if 400 ≤ status ∧ status < 600 then .error (.httpError status) else .ok ()

/-- Python's `s.startswith(pre)`: the characters of `pre` are an initial
segment of the characters of `s`. -/
def startswith (s pre : String) : Bool :=
  pre.data.isPrefixOf s.data

/-- `soup.find(a, title=t)`: the first anchor whose title attribute equals
`t` exactly, if any. -/
def findAnchorByTitle (anchors : List Anchor) (t : String) : Option Anchor :=
  anchors.find? (fun a => a.title = some t)

/-- `get_bulk_xml_url` (lines 17..30): fetch the download page, fail on an
HTTP error status, look for the anchor titled `EXPECTED_TITLE`; if the
anchor is missing, or its href is missing or empty (Python truthiness of
`link.get('href')`), raise the link-not-found RuntimeError together with
the first 2000 characters of the body as diagnostic context; otherwise
return the href as-is when it starts with "http" and prefixed with
`ORIGIN` when it does not. -/
def get_bulk_xml_url (resp : PageResponse) : Except Err String :=
  match raise_for_status resp.statusCode with
  | .error e => .error e
  | .ok _ =>
    match findAnchorByTitle resp.anchors EXPECTED_TITLE with
    | none => .error (.linkNotFound (resp.text.take 2000))
    | some link =>
      match link.href with
      | none => .error (.linkNotFound (resp.text.take 2000))
      | some href =>
        if href = "" then .error (.linkNotFound (resp.text.take 2000))
        else .ok (if startswith href "http" then href else ORIGIN ++ href)

/-- C1: with a success status and a matching anchor carrying a non-empty
href, the resolver returns exactly the href when it begins with "http",
and the fixed origin concatenated with the href otherwise — one URL
string either way. -/
theorem resolver_returns_href_or_origin_prefixed
    (resp : PageResponse) (link : Anchor) (href : String)
    (hstatus : ¬ (400 ≤ resp.statusCode ∧ resp.statusCode < 600))
    (hfind : findAnchorByTitle resp.anchors EXPECTED_TITLE = some link)
    (hhref : link.href = some href)
    (hne : href ≠ "") :
    get_bulk_xml_url resp =
      .ok (if startswith href "http" then href else ORIGIN ++ href) := by
  simp only [get_bulk_xml_url, raise_for_status, if_neg hstatus, hfind, hhref,
    if_neg hne]

/-- Witness for C1 at two concrete fixtures: a relative href is prefixed
with the origin, and an absolute href is returned unmodified. -/
theorem resolver_returns_href_or_origin_prefixed_witness :
    get_bulk_xml_url
        ⟨200, [], [⟨some "All USC Titles in XML", some "/files/usc.zip"⟩]⟩ =
      .ok "https://uscode.house.gov/files/usc.zip" ∧
    get_bulk_xml_url
        ⟨200, [], [⟨some "All USC Titles in XML", some "http://x.gov/usc.zip"⟩]⟩ =
      .ok "http://x.gov/usc.zip" := by
  constructor
  · have h := resolver_returns_href_or_origin_prefixed
      ⟨200, [], [⟨some "All USC Titles in XML", some "/files/usc.zip"⟩]⟩
      ⟨some "All USC Titles in XML", some "/files/usc.zip"⟩ "/files/usc.zip"
      (by decide) (by decide) rfl (by decide)
    rw [h]; decide
  · have h := resolver_returns_href_or_origin_prefixed
      ⟨200, [], [⟨some "All USC Titles in XML", some "http://x.gov/usc.zip"⟩]⟩
      ⟨some "All USC Titles in XML", some "http://x.gov/usc.zip"⟩ "http://x.gov/usc.zip"
      (by decide) (by decide) rfl (by decide)
    rw [h]; decide

/-- C3: with a success status, if no anchor carries the expected title, or
the matching anchor has no href attribute, the resolver fails with the
link-not-found error, and the diagnostic snippet it carries is the prefix
of the body of length at most 2000 characters. -/
theorem resolver_link_not_found
    (resp : PageResponse)
    (hstatus : ¬ (400 ≤ resp.statusCode ∧ resp.statusCode < 600))
    (hmiss : findAnchorByTitle resp.anchors EXPECTED_TITLE = none ∨
      ∃ link, findAnchorByTitle resp.anchors EXPECTED_TITLE = some link ∧
        link.href = none) :
    get_bulk_xml_url resp = .error (.linkNotFound (resp.text.take 2000)) ∧
    (resp.text.take 2000).length ≤ 2000 ∧
    resp.text.take 2000 ++ resp.text.drop 2000 = resp.text := by
  refine ⟨?_, ?_, List.take_append_drop 2000 resp.text⟩
  · rcases hmiss with hnone | ⟨link, hsome, hhref⟩
    · simp only [get_bulk_xml_url, raise_for_status, if_neg hstatus, hnone]
    · simp only [get_bulk_xml_url, raise_for_status, if_neg hstatus, hsome, hhref]
  · rw [List.length_take]; exact min_le_left _ _

/-- Witness for C3 at a concrete fixture lacking the expected anchor. -/
theorem resolver_link_not_found_witness :
    get_bulk_xml_url ⟨200, ['<', 'p', '>'], [⟨some "Other", some "/x"⟩]⟩ =
      .error (.linkNotFound ['<', 'p', '>']) := by
  have h := resolver_link_not_found ⟨200, ['<', 'p', '>'], [⟨some "Other", some "/x"⟩]⟩
    (by decide) (Or.inl (by decide))
  simpa using h.1

/-- C10: with a success status, if the matching anchor's href attribute is
present but equal to the empty string, the resolver fails with the same
link-not-found error as for a missing href, rather than returning a URL. -/
theorem resolver_empty_href_not_found
    (resp : PageResponse) (link : Anchor)
    (hstatus : ¬ (400 ≤ resp.statusCode ∧ resp.statusCode < 600))
    (hfind : findAnchorByTitle resp.anchors EXPECTED_TITLE = some link)
    (hhref : link.href = some "") :
    get_bulk_xml_url resp = .error (.linkNotFound (resp.text.take 2000)) := by
  simp [get_bulk_xml_url, raise_for_status, hstatus, hfind, hhref]

/-- Witness for C10 at a concrete fixture whose anchor has an empty href. -/
theorem resolver_empty_href_not_found_witness :
    get_bulk_xml_url ⟨200, [], [⟨some "All USC Titles in XML", some ""⟩]⟩ =
      .error (.linkNotFound []) := by
  have h := resolver_empty_href_not_found
    ⟨200, [], [⟨some "All USC Titles in XML", some ""⟩]⟩
    ⟨some "All USC Titles in XML", some ""⟩ (by decide) (by decide) rfl
  simpa using h

/-- The tqdm progress bar state: `total` is the target passed at
construction (`int(r.headers.get('content-length', 0))`, so `0` when the
header is absent) and `n` is the byte count accumulated by
`pbar.update(len(chunk))`. -/
structure PBar where
  total : Nat
  n : Nat
deriving Repr, DecidableEq

/-- Whether tqdm renders a known total for this bar: every use of `total`
in tqdm's meter formatting is guarded by Python truthiness (`if total:`),
so a bar whose total is `0` is rendered in the unknown-total format,
exactly like a bar constructed with no total. -/
def hasKnownTotal (pbar : PBar) : Bool :=
  pbar.total ≠ 0

/-- One iteration of the download loop (lines 38..41): `if chunk:` skips
falsy (empty) chunks; otherwise `f.write(chunk)` appends the chunk to the
file and `pbar.update(len(chunk))` adds its length to the counter. -/
def download_step (st : Bytes × Nat) (chunk : Bytes) : Bytes × Nat :=
  if chunk = [] then st else (st.1 ++ chunk, st.2 + chunk.length)

/-- The whole `for chunk in r.iter_content(...)` loop, starting from an
empty file and a zero progress counter: resulting file bytes and counter. -/
def download_body (chunks : List Bytes) : Bytes × Nat :=
  chunks.foldl download_step ([], 0)

/-- `download_file` (lines 32..42): raise on an HTTP error status, seed
the progress total from the content-length header with default 0, run the
chunk loop, and deliver the written file together with the final progress
bar. -/
def download_file (r : DownloadResponse) : Except Err (Bytes × PBar) :=
  match raise_for_status r.statusCode with
  | .error e => .error e
  | .ok _ =>
    let total := r.contentLength.getD 0
    let res := download_body r.chunks
    .ok (res.1, ⟨total, res.2⟩)

/-- The chunk loop run from any starting state appends the concatenation
of the chunks to the file and adds its total length to the counter; empty
chunks contribute nothing either way. -/
theorem download_body_eq (chunks : List Bytes) (acc : Bytes) (k : Nat) :
    chunks.foldl download_step (acc, k) = (acc ++ chunks.flatten, k + chunks.flatten.length) := by
  induction chunks generalizing acc k with
  | nil => simp
  | cons c cs ih =>
    by_cases hc : c = []
    · subst hc
      simpa [download_step] using ih acc k
    · simp only [List.foldl_cons, download_step, if_neg hc, ih, List.flatten_cons]
      refine Prod.ext ?_ ?_
      · simp [List.append_assoc]
      · simp [List.length_append]; omega

/-- C2: on a success status the downloader succeeds, the file it writes is
exactly the concatenation of the stream's bytes, and the progress counter
ends at that concatenation's length; consequently any two chunkings of the
same byte stream produce the same file. -/
theorem download_file_writes_stream
    (r : DownloadResponse)
    (hstatus : ¬ (400 ≤ r.statusCode ∧ r.statusCode < 600)) :
    download_file r =
      .ok (r.chunks.flatten, ⟨r.contentLength.getD 0, r.chunks.flatten.length⟩) ∧
    ∀ cs cs' : List Bytes, cs.flatten = cs'.flatten →
      (download_body cs).1 = (download_body cs').1 := by
  constructor
  · simp [download_file, raise_for_status, hstatus, download_body, download_body_eq]
  · intro cs cs' h
    simp [download_body, download_body_eq, h]

/-- Witness for C2: a stream split as 3-byte and 2-byte chunks with an
empty chunk in between is written as the 5 concatenated bytes. -/
theorem download_file_writes_stream_witness :
    download_file ⟨200, some 5, [[10, 20, 30], [], [40, 50]]⟩ =
      .ok ([10, 20, 30, 40, 50], ⟨5, 5⟩) := by
  have h := download_file_writes_stream ⟨200, some 5, [[10, 20, 30], [], [40, 50]]⟩
    (by decide)
  rw [h.1]; decide

/-- C8: on a success status the progress bar total is seeded with the
content-length header's value when the header is present and with 0 when
it is absent, and in the absent case the bar renders with no known total. -/
theorem download_total_seeded_from_header
    (r : DownloadResponse)
    (hstatus : ¬ (400 ≤ r.statusCode ∧ r.statusCode < 600)) :
    ∃ file pbar, download_file r = .ok (file, pbar) ∧
      pbar.total = r.contentLength.getD 0 ∧
      (r.contentLength = none → hasKnownTotal pbar = false) := by
  refine ⟨(download_body r.chunks).1, ⟨r.contentLength.getD 0, (download_body r.chunks).2⟩,
    ?_, rfl, ?_⟩
  · simp only [download_file, raise_for_status, if_neg hstatus]
  · intro hnone
    simp [hasKnownTotal, hnone]

/-- Witness for C8: a response with no content-length header yields a bar
with total 0 and no known total; one with the header set to 7 yields
total 7. -/
theorem download_total_seeded_from_header_witness :
    (∃ file pbar, download_file ⟨200, none, [[1]]⟩ = .ok (file, pbar) ∧
      pbar.total = 0 ∧ hasKnownTotal pbar = false) ∧
    (∃ file pbar, download_file ⟨200, some 7, [[1]]⟩ = .ok (file, pbar) ∧
      pbar.total = 7) := by
  constructor
  · obtain ⟨file, pbar, h1, h2, h3⟩ :=
      download_total_seeded_from_header ⟨200, none, [[1]]⟩ (by decide)
    exact ⟨file, pbar, h1, h2, h3 rfl⟩
  · obtain ⟨file, pbar, h1, h2, _⟩ :=
      download_total_seeded_from_header ⟨200, some 7, [[1]]⟩ (by decide)
    exact ⟨file, pbar, h1, h2⟩

/-- Events observable on the destination file handle during
`download_file`: the `open(output_path, 'wb')` call, each chunk write, and
the close performed by the `with` statement's exit. -/
inductive FileEvent where
  | openFile
  | write (chunk : Bytes)
  | closeFile
deriving Repr, DecidableEq

/-- The body of the file `with` block: the writes of the non-empty chunks
in order.  When `failAt` is `some k`, the transfer raises after `k` chunks
(modelling a transport exception during `iter_content`), so only the
writes for the first `k` chunks happen and the flag records abnormal
termination. -/
def write_loop_events (chunks : List Bytes) (failAt : Option Nat) :
    List FileEvent × Bool :=
  match failAt with
  | none => ((chunks.filter (fun c => c ≠ [])).map FileEvent.write, true)
  | some k => (((chunks.take k).filter (fun c => c ≠ [])).map FileEvent.write, false)

/-- Python's `with open(...)` semantics (the language desugars the `with`
statement to try/finally): the file is opened first and `__exit__`, which
closes the handle, runs whether the suite completes or raises. -/
def with_open (body : List FileEvent × Bool) : List FileEvent × Bool :=
  (FileEvent.openFile :: body.1 ++ [FileEvent.closeFile], body.2)

/-- The event trace of `download_file` on a stream of chunks, for a
transfer that either completes (`failAt = none`) or raises mid-transfer. -/
def download_file_events (chunks : List Bytes) (failAt : Option Nat) :
    List FileEvent × Bool :=
  with_open (write_loop_events chunks failAt)

/-- C9: on every exit path of the downloader — normal completion or an
exception after any number of chunks — the trace on the destination file
handle starts with the open, ends with the close, and closes exactly
once. -/
theorem download_file_closes_handle (chunks : List Bytes) (failAt : Option Nat) :
    (download_file_events chunks failAt).1.head? = some FileEvent.openFile ∧
    (download_file_events chunks failAt).1.getLast? = some FileEvent.closeFile ∧
    (download_file_events chunks failAt).1.count FileEvent.closeFile = 1 := by
  have hcount : ∀ l : List Bytes,
      (l.map FileEvent.write).count FileEvent.closeFile = 0 := by
    intro l
    rw [List.count_eq_zero]
    intro hmem
    obtain ⟨c, _, hc⟩ := List.mem_map.mp hmem
    exact FileEvent.noConfusion hc
  refine ⟨rfl, ?_, ?_⟩
  · simp only [download_file_events, with_open]
    rw [show FileEvent.openFile :: (write_loop_events chunks failAt).1 ++
        [FileEvent.closeFile] =
        (FileEvent.openFile :: (write_loop_events chunks failAt).1) ++
        [FileEvent.closeFile] from rfl]
    exact List.getLast?_concat _
  · simp only [download_file_events, with_open]
    cases failAt with
    | none =>
      simp only [write_loop_events, List.count_cons, List.count_append, hcount]
      decide
    | some k =>
      simp only [write_loop_events, List.count_cons, List.count_append, hcount]
      decide

/-- One entry of a ZIP archive: its internal relative path and its byte
contents. -/
structure Entry where
  name : String
  content : Bytes
deriving Repr, DecidableEq

/-- How a file on disk parses as a ZIP archive: `zipfile.ZipFile` either
opens it and exposes its entry list, or raises `BadZipFile` because the
file is not a valid archive of the expected format. -/
inductive ZipData where
  | valid (entries : List Entry)
  | invalid
deriving Repr, DecidableEq

/-- `ZipFile.extractall(out_dir)`: every entry of the archive is written
at `os.path.join(out_dir, name)`, preserving the archive's internal
relative paths, with its contents unchanged. -/
def extractall (entries : List Entry) (outDir : String) : List (String × Bytes) :=
  entries.map (fun e => (outDir ++ "/" ++ e.name, e.content))

/-- `unzip_to_xml_dir` (lines 44..48): open the file at the archive path —
raising `BadZipFile` when it is not a valid ZIP — and extract all entries
into the output directory.  The result lists the files written, as
path-contents pairs. -/
def unzip_to_xml_dir (zipData : ZipData) (outDir : String) :
    Except Err (List (String × Bytes)) :=
  match zipData with
  | .invalid => .error .badZipFile
  | .valid entries => .ok (extractall entries outDir)

/-- C5: extracting a well-formed archive succeeds and writes exactly the
extraction of its entries; each entry appears under the destination
directory at its archive-internal relative path with identical contents. -/
theorem unzip_extracts_all_entries
    (entries : List Entry) (outDir : String) (e : Entry)
    (he : e ∈ entries) :
    unzip_to_xml_dir (.valid entries) outDir = .ok (extractall entries outDir) ∧
    (outDir ++ "/" ++ e.name, e.content) ∈ extractall entries outDir := by
  refine ⟨rfl, ?_⟩
  exact List.mem_map.mpr ⟨e, he, rfl⟩

/-- Witness for C5: an archive with `a.txt` and `sub/b.txt` reproduces
both files, with identical contents and relative paths, under `xml`. -/
theorem unzip_extracts_all_entries_witness :
    unzip_to_xml_dir (.valid [⟨"a.txt", [1, 2]⟩, ⟨"sub/b.txt", [3]⟩]) "xml" =
      .ok [("xml/a.txt", [1, 2]), ("xml/sub/b.txt", [3])] ∧
    ("xml/sub/b.txt", ([3] : Bytes)) ∈
      extractall [⟨"a.txt", [1, 2]⟩, ⟨"sub/b.txt", [3]⟩] "xml" := by
  have h := unzip_extracts_all_entries [⟨"a.txt", [1, 2]⟩, ⟨"sub/b.txt", [3]⟩]
    "xml" ⟨"sub/b.txt", [3]⟩ (by decide)
  refine ⟨?_, h.2⟩
  rw [h.1]; decide

/-- Filesystem errors the directory preparer could in principle raise:
`os.makedirs` raises `FileExistsError` when the leaf directory exists and
`exist_ok` is false. -/
inductive FsErr where
  | fileExists
deriving Repr, DecidableEq

/-- Insert a directory path into the set of existing directories, a no-op
when it is already present. -/
def insertDir (fs : List String) (p : String) : List String :=
  if p ∈ fs then fs else fs ++ [p]

/-- The chain of directories `os.makedirs` creates for a path: each
component-wise ancestor of the path, shortest first, ending with the path
itself. -/
def ancestorPaths (p : String) : List String :=
  let comps := p.splitOn "/"
  (List.range comps.length).map
    (fun i => String.intercalate "/" (comps.take (i + 1)))

/-- `os.makedirs(p, exist_ok=ok)` on a filesystem given as the set of
existing directories: raises `FileExistsError` when the leaf already
exists and `exist_ok` is false, and otherwise creates the path and every
missing ancestor. -/
def makedirs (p : String) (ok : Bool) (fs : List String) :
    Except FsErr (List String) :=
  if p ∈ fs ∧ ok = false then .error .fileExists
  else .ok ((ancestorPaths p).foldl insertDir fs)

/-- The raw staging directory constant, `../data/raw` resolved relative to
the script's own directory (line 7 of the script). -/
def RAW_DIR : String := "data/raw"

/-- The extracted-XML directory constant, `../data/xml` resolved relative
to the script's own directory (line 8 of the script). -/
def XML_DIR : String := "data/xml"

/-- The archive destination path `os.path.join(RAW_DIR, 'usc.zip')`
(line 9 of the script). -/
def ZIP_OUTPUT_PATH : String := "data/raw/usc.zip"

/-- `ensure_dirs` (lines 13..15): `os.makedirs` on `RAW_DIR` then on
`XML_DIR`, both with `exist_ok=True`. -/
def ensure_dirs (fs : List String) : Except FsErr (List String) :=
  match makedirs RAW_DIR true fs with
  | .error e => .error e
  | .ok fs1 => makedirs XML_DIR true fs1

/-- Membership in the directory set is preserved by creating more
directories. -/
theorem mem_foldl_insertDir (L : List String) (fs : List String) (x : String)
    (hx : x ∈ fs) : x ∈ L.foldl insertDir fs := by
  induction L generalizing fs with
  | nil => exact hx
  | cons a L ih =>
    refine ih (insertDir fs a) ?_
    unfold insertDir
    split
    · exact hx
    · exact List.mem_append_left _ hx

/-- Every directory in the creation chain ends up in the directory set. -/
theorem mem_foldl_insertDir_of_mem_list (L : List String) (fs : List String)
    (x : String) (hx : x ∈ L) : x ∈ L.foldl insertDir fs := by
  induction L generalizing fs with
  | nil => cases hx
  | cons a L ih =>
    rcases List.mem_cons.mp hx with rfl | hx
    · refine mem_foldl_insertDir L _ x ?_
      unfold insertDir
      split
      · assumption
      · exact List.mem_append_right _ (List.mem_singleton.mpr rfl)
    · exact ih (insertDir fs a) hx

/-- Creating directories that all already exist changes nothing. -/
theorem foldl_insertDir_of_subset (L : List String) (fs : List String)
    (h : ∀ x ∈ L, x ∈ fs) : L.foldl insertDir fs = fs := by
  induction L with
  | nil => rfl
  | cons a L ih =>
    have ha : insertDir fs a = fs := by
      unfold insertDir
      rw [if_pos (h a (List.mem_cons_self a L))]
    rw [List.foldl_cons, ha]
    exact ih (fun x hx => h x (List.mem_cons_of_mem a hx))

/-- With `exist_ok=True`, `makedirs` always succeeds and creates the
missing part of the ancestor chain. -/
theorem makedirs_exist_ok_eq (p : String) (g : List String) :
    makedirs p true g = .ok ((ancestorPaths p).foldl insertDir g) := by
  unfold makedirs
  rw [if_neg (by simp)]

/-- The directory preparer always succeeds, creating both ancestor
chains. -/
theorem ensure_dirs_eq (g : List String) :
    ensure_dirs g = .ok ((ancestorPaths XML_DIR).foldl insertDir
      ((ancestorPaths RAW_DIR).foldl insertDir g)) := by
  unfold ensure_dirs
  simp only [makedirs_exist_ok_eq]

/-- C7: on every filesystem state the directory preparer succeeds — in
particular it never fails when a target directory already exists — and a
second call on the resulting state succeeds and returns that state
unchanged, so two calls in succession have the outcome of one. -/
theorem ensure_dirs_idempotent (fs : List String) :
    ∃ fs1, ensure_dirs fs = .ok fs1 ∧ ensure_dirs fs1 = .ok fs1 := by
  refine ⟨(ancestorPaths XML_DIR).foldl insertDir
    ((ancestorPaths RAW_DIR).foldl insertDir fs), ensure_dirs_eq fs, ?_⟩
  rw [ensure_dirs_eq]
  have h1 : ∀ x ∈ ancestorPaths RAW_DIR,
      x ∈ (ancestorPaths XML_DIR).foldl insertDir
        ((ancestorPaths RAW_DIR).foldl insertDir fs) := by
    intro x hx
    exact mem_foldl_insertDir _ _ x (mem_foldl_insertDir_of_mem_list _ _ x hx)
  have h2 : ∀ x ∈ ancestorPaths XML_DIR,
      x ∈ (ancestorPaths XML_DIR).foldl insertDir
        ((ancestorPaths RAW_DIR).foldl insertDir fs) := by
    intro x hx
    exact mem_foldl_insertDir_of_mem_list _ _ x hx
  rw [foldl_insertDir_of_subset _ _ h1, foldl_insertDir_of_subset _ _ h2]

/-- The environment a run observes: the response to the download-page
fetch, the response to the archive request, and how the bytes written to
the archive path parse as a ZIP archive. -/
structure Env where
  page : PageResponse
  download : DownloadResponse
  zipOf : Bytes → ZipData

/-- The four pipeline steps the orchestrator runs in order
(lines 50..55). -/
inductive Step where
  | prepareDirs
  | resolveLink
  | downloadArchive
  | extractArchive
deriving Repr, DecidableEq

/-- `main` (lines 50..55): run the four steps in strict sequence, stopping
at the first exception.  The result records which steps executed (a
failing step counts as executed) and either the propagated error or the
extracted files. -/
def main (env : Env) (fs : List String) :
    List Step × Except Err (List (String × Bytes)) :=
  match ensure_dirs fs with
  | .error _ => ([.prepareDirs], .error .osError)
  | .ok _ =>
    match get_bulk_xml_url env.page with
    | .error e => ([.prepareDirs, .resolveLink], .error e)
    | .ok _ =>
      match download_file env.download with
      | .error e => ([.prepareDirs, .resolveLink, .downloadArchive], .error e)
      | .ok res =>
        match unzip_to_xml_dir (env.zipOf res.1) XML_DIR with
        | .error e =>
          ([.prepareDirs, .resolveLink, .downloadArchive, .extractArchive], .error e)
        | .ok files =>
          ([.prepareDirs, .resolveLink, .downloadArchive, .extractArchive], .ok files)

/-- A page response whose status, 304, is not a success status, yet still
carries the expected anchor in its body. -/
def notModifiedPage : PageResponse :=
  ⟨304, [], [⟨some "All USC Titles in XML", some "/files/usc.zip"⟩]⟩

/-- Counterexample to C4 as stated: a 304 response is not a success
status, but `raise_for_status` only raises for status codes 400..599, so
the resolver proceeds and even returns a URL instead of failing with the
network error. -/
theorem nonsuccess_status_not_network_error :
    ¬ (200 ≤ notModifiedPage.statusCode ∧ notModifiedPage.statusCode < 300) ∧
    get_bulk_xml_url notModifiedPage =
      .ok "https://uscode.house.gov/files/usc.zip" := by
  decide

/-- C4 (amended to the 400..599 range that `raise_for_status` raises on):
when the page fetch has a client- or server-error status, or the page
resolves and the archive request has such a status, the run fails with the
HTTP error of the failing request, the extract step never executes, and in
the page-fetch case the download step never executes either. -/
theorem http_error_fail_fast (env : Env) (fs : List String)
    (h : (400 ≤ env.page.statusCode ∧ env.page.statusCode < 600) ∨
      ((∃ u, get_bulk_xml_url env.page = .ok u) ∧
        400 ≤ env.download.statusCode ∧ env.download.statusCode < 600)) :
    (∃ s, (main env fs).2 = .error (.httpError s)) ∧
    Step.extractArchive ∉ (main env fs).1 ∧
    (400 ≤ env.page.statusCode ∧ env.page.statusCode < 600 →
      Step.downloadArchive ∉ (main env fs).1) := by
  rcases h with hp | ⟨⟨u, hu⟩, hd⟩
  · have hres : get_bulk_xml_url env.page = .error (.httpError env.page.statusCode) := by
      simp only [get_bulk_xml_url, raise_for_status, if_pos hp]
    simp only [main, ensure_dirs_eq, hres]
    exact ⟨⟨env.page.statusCode, rfl⟩, by decide, fun _ => by decide⟩
  · have hdl : download_file env.download = .error (.httpError env.download.statusCode) := by
      simp only [download_file, raise_for_status, if_pos hd]
    simp only [main, ensure_dirs_eq, hu, hdl]
    refine ⟨⟨env.download.statusCode, rfl⟩, by decide, fun hp => ?_⟩
    have hres : get_bulk_xml_url env.page = .error (.httpError env.page.statusCode) := by
      simp only [get_bulk_xml_url, raise_for_status, if_pos hp]
    rw [hres] at hu
    cases hu

/-- Witness for the amended C4 at a concrete environment whose page fetch
returns 404: the run fails with that HTTP error and neither the download
step nor the extract step executes. -/
theorem http_error_fail_fast_witness :
    (∃ s, (main ⟨⟨404, [], []⟩, ⟨200, none, []⟩, fun _ => .valid []⟩ []).2 =
      .error (.httpError s)) ∧
    Step.extractArchive ∉
      (main ⟨⟨404, [], []⟩, ⟨200, none, []⟩, fun _ => .valid []⟩ []).1 ∧
    (400 ≤ (404 : Nat) ∧ (404 : Nat) < 600 →
      Step.downloadArchive ∉
        (main ⟨⟨404, [], []⟩, ⟨200, none, []⟩, fun _ => .valid []⟩ []).1) :=
  http_error_fail_fast ⟨⟨404, [], []⟩, ⟨200, none, []⟩, fun _ => .valid []⟩ []
    (Or.inl (by decide))

/-- C6: when the downloaded file is not a valid archive of the expected
ZIP format, the extractor fails with the bad-ZIP error, and a run that
reaches the extract step with such a file aborts with that error. -/
theorem invalid_zip_aborts (env : Env) (fs : List String)
    (url : String) (res : Bytes × PBar)
    (hurl : get_bulk_xml_url env.page = .ok url)
    (hdl : download_file env.download = .ok res)
    (hzip : env.zipOf res.1 = .invalid) :
    (∀ outDir, unzip_to_xml_dir .invalid outDir = .error .badZipFile) ∧
    (main env fs).2 = .error .badZipFile := by
  refine ⟨fun outDir => rfl, ?_⟩
  simp only [main, ensure_dirs_eq, hurl, hdl, hzip, unzip_to_xml_dir]

/-- Witness for C6 at a concrete environment where the two requests
succeed but the downloaded bytes do not form a valid ZIP archive. -/
theorem invalid_zip_aborts_witness :
    (main ⟨⟨200, [], [⟨some "All USC Titles in XML", some "/a.zip"⟩]⟩,
        ⟨200, some 2, [[1, 2]]⟩, fun _ => .invalid⟩ []).2 =
      .error .badZipFile :=
  (invalid_zip_aborts
    ⟨⟨200, [], [⟨some "All USC Titles in XML", some "/a.zip"⟩]⟩,
      ⟨200, some 2, [[1, 2]]⟩, fun _ => .invalid⟩ []
    "https://uscode.house.gov/a.zip" ([1, 2], ⟨2, 2⟩)
    (by decide) (by decide) rfl).2

end UscZip
